import Mathlib

/-!
# Bounded WiFi connection acquisition (`hardware/esp32/setup_02.cpp`)

A shallow embedding of the `setup()` routine of the ESP32 sketch: the calls it
makes on the Arduino core (`Serial`, `WiFi`, `millis`, `delay`) become explicit
transformations of a `World`, the behaviour of the radio and of the clock is an
`Env`, and the `while` loop is a fuelled recursion.
-/

namespace Esp32Setup

/-! ## Data model -/

/-- Modelled from the spec: the link status enumeration `wl_status_t` of `WiFi.h`
(the header is not part of the sources).  The three constructors the sketch names
keep their names; `Disconnected` and `Connecting` are the remaining members of the
spec's `LinkStatus`. -/
inductive wl_status_t where
  | Disconnected
  | Connecting
  | WL_CONNECTED
  | WL_NO_SSID_AVAIL
  | WL_CONNECT_FAILED
  deriving DecidableEq, Repr

open wl_status_t

/-- Modelled from the spec: the `IPAddress` value of `WiFi.h` returned by
`WiFi.localIP()`, kept as the address string the spec calls `AddressString`. -/
structure IPAddress where
  text : String
  deriving DecidableEq, Repr

/-- What the radio shows at one observation: its status and its local address. -/
structure LinkState where
  status : wl_status_t
  localIP : IPAddress
  deriving DecidableEq, Repr

/-- One call on `Serial`: the overloads of `print` and `println` the sketch uses. -/
inductive SerialOut where
  | print (s : String)
  | println (s : String)
  | printlnBlank
  | printlnAddr (a : IPAddress)
  deriving DecidableEq, Repr

/-- The four ways an attempt can end (the spec's `Outcome`), one per branch of the
final `if` chain. -/
inductive Outcome where
  | Connected (a : IPAddress)
  | NetworkNotFound
  | AuthenticationFailed
  | TimedOut
  deriving DecidableEq, Repr

/-- The behaviour of everything outside the sketch.
* `boot`: the hardware millisecond counter when `setup()` is entered;
* `link n`: what the radio shows at the `n`-th call on `WiFi` that reads it
  (`status()` or `localIP()`), counted from `0`;
* `sleep k ms`: by how many milliseconds the counter advances during the `k`-th
  call `delay(ms)`; a clock that advances only by the requested delay has
  `sleep k ms = ms`. -/
structure Env where
  boot : Nat
  link : Nat → LinkState
  sleep : Nat → Nat → Nat

/-- The state the sketch acts on. -/
structure World where
  now : Nat
  reads : Nat
  sleeps : Nat
  baud : Option Nat
  station : Option (String × String)
  serial : List SerialOut
  deriving DecidableEq, Repr

/-! ## Constants of the sketch -/

def ssid : String := "Jayem"

def password : String := "00000000"

/-- The local constant `timeout` of `setup()`: 15 seconds. -/
def timeout : Nat := 15000

/-- The argument of `delay(500)` in the loop body. -/
def pollDelay : Nat := 500

def msgConnecting : String := "Connecting to WiFi..."

def msgConnected : String := "✅ Connected!"

def msgIpLabel : String := "IP Address: "

def msgNotFound : String := "❌ Failed: WiFi network not found!"

def msgBadPassword : String := "❌ Failed: Incorrect password!"

def msgTimeout : String := "❌ Failed: Connection timeout!"

/-! ## The Arduino core calls -/

/-- The range of `unsigned long` on the ESP32: 32 bits. -/
def ULONG : Nat := 2 ^ 32

/-- Subtraction of two `unsigned long` values, as in `millis() - startAttemptTime`. -/
def usub (a b : Nat) : Nat := (a + ULONG - b % ULONG) % ULONG

/-- Reading of `millis()`: the hardware counter truncated to `unsigned long`. -/
def millis (w : World) : Nat := w.now % ULONG

/-- Effect of `delay(ms)`. -/
def delay (env : Env) (ms : Nat) (w : World) : World :=
  { w with now := w.now + env.sleep w.sleeps ms, sleeps := w.sleeps + 1 }

def Serial.begin (b : Nat) (w : World) : World :=
  { w with baud := some b }

def Serial.print (s : String) (w : World) : World :=
  { w with serial := w.serial ++ [SerialOut.print s] }

def Serial.println (s : String) (w : World) : World :=
  { w with serial := w.serial ++ [SerialOut.println s] }

def Serial.printlnBlank (w : World) : World :=
  { w with serial := w.serial ++ [SerialOut.printlnBlank] }

def Serial.printlnAddr (a : IPAddress) (w : World) : World :=
  { w with serial := w.serial ++ [SerialOut.printlnAddr a] }

def WiFi.begin (id pw : String) (w : World) : World :=
  { w with station := some (id, pw) }

def WiFi.status (env : Env) (w : World) : wl_status_t × World :=
  ((env.link w.reads).status, { w with reads := w.reads + 1 })

def WiFi.localIP (env : Env) (w : World) : IPAddress × World :=
  ((env.link w.reads).localIP, { w with reads := w.reads + 1 })

/-! ## The routine -/

/-- The loop condition
`WiFi.status() != WL_CONNECTED && millis() - startAttemptTime < timeout`;
`millis()` is read only when the status is not `WL_CONNECTED`. -/
def loopCond (env : Env) (T start : Nat) (w : World) : Bool × World :=
  let r := WiFi.status env w
  if r.1 ≠ WL_CONNECTED then (decide (usub (millis r.2) start < T), r.2)
  else (false, r.2)

/-- The loop body: `Serial.print("."); delay(P);`. -/
def loopBody (env : Env) (P : Nat) (w : World) : World :=
  delay env P (Serial.print "." w)

/-- The `while` loop; `fuel` bounds the number of evaluations of its condition. -/
def pollLoop (env : Env) (T P start : Nat) : Nat → World → Option World
  | 0, _ => none
  | fuel + 1, w =>
    let c := loopCond env T start w
    if c.1 then pollLoop env T P start fuel (loopBody env P c.2) else some c.2

/-- The `if` chain after the loop ("Check final status"): every test calls
`WiFi.status()` again. -/
def checkFinalStatus (env : Env) (w : World) : Outcome × World :=
  let r1 := WiFi.status env w
  if r1.1 = WL_CONNECTED then
    let w2 := Serial.print msgIpLabel (Serial.println msgConnected r1.2)
    let a := WiFi.localIP env w2
    (Outcome.Connected a.1, Serial.printlnAddr a.1 a.2)
  else
    let r2 := WiFi.status env r1.2
    if r2.1 = WL_NO_SSID_AVAIL then
      (Outcome.NetworkNotFound, Serial.println msgNotFound r2.2)
    else
      let r3 := WiFi.status env r2.2
      if r3.1 = WL_CONNECT_FAILED then
        (Outcome.AuthenticationFailed, Serial.println msgBadPassword r3.2)
      else
        (Outcome.TimedOut, Serial.println msgTimeout r3.2)

/-- The world in which `setup()` starts. -/
def World.init (env : Env) : World :=
  { now := env.boot, reads := 0, sleeps := 0, baud := none, station := none, serial := [] }

/-- The body of `setup()` with the timeout `T` and the inter-poll delay `P` as
parameters. -/
def acquire (env : Env) (T P fuel : Nat) : Option (Outcome × World) :=
  let w1 := Serial.println msgConnecting (Serial.begin 115200 (World.init env))
  let w2 := WiFi.begin ssid password w1
  let startAttemptTime := millis w2
  match pollLoop env T P startAttemptTime fuel w2 with
  | none => none
  | some w3 => some (checkFinalStatus env (Serial.printlnBlank w3))

/-- The routine `setup()` of the sketch: `timeout = 15000`, `delay(500)`. -/
def setup (env : Env) (fuel : Nat) : Option (Outcome × World) :=
  acquire env timeout pollDelay fuel

/-! ## Observations on a run -/

/-- Is this call on `Serial` one of the four terminal summary lines? -/
def isSummary : SerialOut → Bool
  | SerialOut.println s =>
    s == msgConnected || s == msgNotFound || s == msgBadPassword || s == msgTimeout
  | _ => false

/-- Number of terminal summary lines in a serial log. -/
def summaryCount (log : List SerialOut) : Nat := (log.filter isSummary).length

/-- Number of progress markers in a serial log. -/
def dotCount (log : List SerialOut) : Nat := log.count (SerialOut.print ".")

/-- The hardware counter at the `i`-th evaluation of the loop condition. -/
def clockAt (env : Env) (P : Nat) : Nat → Nat
  | 0 => env.boot
  | i + 1 => clockAt env P i + env.sleep i P

/-- The value of `millis() - startAttemptTime` at the `i`-th evaluation of the
loop condition. -/
def elapsedAt (env : Env) (P i : Nat) : Nat :=
  usub (clockAt env P i % ULONG) (env.boot % ULONG)

/-- The loop keeps going at its `i`-th evaluation: not connected, before the
deadline. -/
def continuesAt (env : Env) (T P i : Nat) : Prop :=
  (env.link i).status ≠ WL_CONNECTED ∧ elapsedAt env P i < T

/-- The loop leaves at its `n`-th evaluation and not before. -/
def exitsAt (env : Env) (T P n : Nat) : Prop :=
  (∀ i, i < n → continuesAt env T P i) ∧ ¬ continuesAt env T P n

/-- The clock advances only by the delay that was asked for. -/
def idealClock (env : Env) : Prop := ∀ k ms, env.sleep k ms = ms

/-- Some environments to run the routine on. -/
def envConst (boot : Nat) (s : wl_status_t) : Env :=
  { boot := boot, link := fun _ => ⟨s, ⟨"192.168.1.42"⟩⟩, sleep := fun _ ms => ms }

/-- A clock that advances by the requested delay and a source whose `n`-th read
shows the status `script n`. -/
def envScript (boot : Nat) (script : Nat → wl_status_t) : Env :=
  { boot := boot, link := fun n => ⟨script n, ⟨"192.168.1.42"⟩⟩, sleep := fun _ ms => ms }

/-- Not connected while polling, wrong password once the deadline is reached. -/
def envBadPassword : Env :=
  envScript 100 (fun n => if n ≤ 30 then Connecting else WL_CONNECT_FAILED)

/-- Network not found from the second read on. -/
def envNoNetwork : Env :=
  envScript 4294960000 (fun n => if n = 0 then Disconnected else WL_NO_SSID_AVAIL)

/-- Connected at the third poll and from then on. -/
def envJoins : Env :=
  envScript 4294966296 (fun n => if n < 2 then Connecting else WL_CONNECTED)

/-- Connected at the first poll, dropped right after. -/
def envDrops : Env :=
  envScript 0 (fun n => if n = 0 then WL_CONNECTED else Disconnected)

/-- A source that stays in `Connecting` on a clock that never advances. -/
def envFrozen : Env :=
  { boot := 0, link := fun _ => ⟨Connecting, ⟨"0.0.0.0"⟩⟩, sleep := fun _ _ => 0 }

/-- Network not found at the first poll, connected from the second on. -/
def envLate : Env :=
  envScript 0 (fun n => if n = 0 then WL_NO_SSID_AVAIL else WL_CONNECTED)

/-- Connected at the first poll, network not found at the next read, connected
again afterwards. -/
def envShift : Env :=
  envScript 0 (fun n => if n = 1 then WL_NO_SSID_AVAIL else WL_CONNECTED)

/-- The world at the `i`-th evaluation of the loop condition. -/
def loopW (env : Env) (P i : Nat) : World :=
  { now := clockAt env P i, reads := i, sleeps := i, baud := some 115200,
    station := some (ssid, password),
    serial := SerialOut.println msgConnecting :: List.replicate i (SerialOut.print ".") }

/-- The world in which the loop is left at its `n`-th evaluation. -/
def exitW (env : Env) (P n : Nat) : World :=
  { loopW env P n with reads := n + 1 }

/-- What `setup()` does once the loop is left at its `n`-th evaluation. -/
def finish (env : Env) (P n : Nat) : Outcome × World :=
  checkFinalStatus env (Serial.printlnBlank (exitW env P n))

/-- The outcome selected by the chain of three status tests on the readings
`s1`, `s2`, `s3` (the second and third are read only when needed). -/
def classify3 (s1 s2 s3 : wl_status_t) : Outcome → Prop
  | Outcome.Connected _ => s1 = WL_CONNECTED
  | Outcome.NetworkNotFound => s1 ≠ WL_CONNECTED ∧ s2 = WL_NO_SSID_AVAIL
  | Outcome.AuthenticationFailed =>
    s1 ≠ WL_CONNECTED ∧ s2 ≠ WL_NO_SSID_AVAIL ∧ s3 = WL_CONNECT_FAILED
  | Outcome.TimedOut =>
    s1 ≠ WL_CONNECTED ∧ s2 ≠ WL_NO_SSID_AVAIL ∧ s3 ≠ WL_CONNECT_FAILED

/-- The outcome the spec attaches to one status value. -/
def classify (a : IPAddress) : wl_status_t → Outcome
  | WL_CONNECTED => Outcome.Connected a
  | WL_NO_SSID_AVAIL => Outcome.NetworkNotFound
  | WL_CONNECT_FAILED => Outcome.AuthenticationFailed
  | _ => Outcome.TimedOut

/-- The calls on `Serial` made by the branch of the final check that yields the
given outcome. -/
def summaryOf : Outcome → List SerialOut
  | Outcome.Connected a =>
    [SerialOut.println msgConnected, SerialOut.print msgIpLabel, SerialOut.printlnAddr a]
  | Outcome.NetworkNotFound => [SerialOut.println msgNotFound]
  | Outcome.AuthenticationFailed => [SerialOut.println msgBadPassword]
  | Outcome.TimedOut => [SerialOut.println msgTimeout]

/-- The serial log of a run that made `n` loop iterations and ended with outcome `o`. -/
def logOf (n : Nat) (o : Outcome) : List SerialOut :=
  SerialOut.println msgConnecting ::
    (List.replicate n (SerialOut.print ".") ++ SerialOut.printlnBlank :: summaryOf o)

instance (env : Env) (T P i : Nat) : Decidable (continuesAt env T P i) := by
  unfold continuesAt; exact inferInstance

instance (env : Env) (T P n : Nat) : Decidable (exitsAt env T P n) := by
  unfold exitsAt; exact inferInstance

/-! ## The loop, evaluation by evaluation -/

theorem usub_mod (s d : Nat) : usub ((s + d) % ULONG) (s % ULONG) = d % ULONG := by
  unfold usub ULONG
  omega

theorem clockAt_ideal (env : Env) (P : Nat) (h : ∀ k, env.sleep k P = P) (i : Nat) :
    clockAt env P i = env.boot + i * P := by
  induction i with
  | zero => simp [clockAt]
  | succ i ih => rw [clockAt, ih, h i]; ring

theorem elapsedAt_ideal (env : Env) (P : Nat) (h : ∀ k, env.sleep k P = P) (i : Nat) :
    elapsedAt env P i = (i * P) % ULONG := by
  unfold elapsedAt
  rw [clockAt_ideal env P h i]
  exact usub_mod _ _

theorem loopCond_loopW (env : Env) (T P i : Nat) :
    loopCond env T (env.boot % ULONG) (loopW env P i)
      = (decide (continuesAt env T P i), exitW env P i) := by
  unfold loopCond
  by_cases hs : (env.link i).status = WL_CONNECTED
  · simp [WiFi.status, loopW, exitW, continuesAt, hs]
  · simp [WiFi.status, loopW, exitW, continuesAt, hs, millis, elapsedAt]

theorem loopBody_exitW (env : Env) (P i : Nat) :
    loopBody env P (exitW env P i) = loopW env P (i + 1) := by
  simp [loopBody, delay, Serial.print, exitW, loopW, clockAt, List.replicate_succ']

theorem pollLoop_step (env : Env) (T P fuel i : Nat) :
    pollLoop env T P (env.boot % ULONG) (fuel + 1) (loopW env P i)
      = if continuesAt env T P i
        then pollLoop env T P (env.boot % ULONG) fuel (loopW env P (i + 1))
        else some (exitW env P i) := by
  rw [pollLoop]
  simp only [loopCond_loopW, loopBody_exitW, decide_eq_true_eq]

/-- If the condition holds at evaluations `i, ..., i + k - 1` and fails at `i + k`,
the loop started at evaluation `i` leaves at `i + k`, whatever fuel is left over. -/
theorem pollLoop_exit (env : Env) (T P : Nat) :
    ∀ (k i extra : Nat), (∀ j, i ≤ j → j < i + k → continuesAt env T P j) →
      ¬ continuesAt env T P (i + k) →
      pollLoop env T P (env.boot % ULONG) (k + 1 + extra) (loopW env P i)
        = some (exitW env P (i + k)) := by
  intro k
  induction k with
  | zero =>
    intro i extra _ hn
    have e : 0 + 1 + extra = extra + 1 := by omega
    rw [e, pollLoop_step, if_neg (by simpa using hn)]
    simp
  | succ k ih =>
    intro i extra hc hn
    have e : k + 1 + 1 + extra = (k + 1 + extra) + 1 := by omega
    rw [e, pollLoop_step, if_pos (hc i (Nat.le_refl i) (by omega))]
    have e2 : i + (k + 1) = (i + 1) + k := by omega
    rw [e2] at hn ⊢
    exact ih (i + 1) extra (fun j h1 h2 => hc j (by omega) (by omega)) hn

/-- Every result of the loop is the exit at the first evaluation whose condition
fails, and that evaluation is within the fuel. -/
theorem pollLoop_some (env : Env) (T P : Nat) :
    ∀ (fuel i : Nat) (w : World),
      pollLoop env T P (env.boot % ULONG) fuel (loopW env P i) = some w →
      ∃ k, k < fuel ∧ (∀ j, i ≤ j → j < i + k → continuesAt env T P j) ∧
        ¬ continuesAt env T P (i + k) ∧ w = exitW env P (i + k) := by
  intro fuel
  induction fuel with
  | zero => intro i w h; simp [pollLoop] at h
  | succ fuel ih =>
    intro i w h
    rw [pollLoop_step] at h
    by_cases hc : continuesAt env T P i
    · rw [if_pos hc] at h
      obtain ⟨k, hk, hall, hn, hw⟩ := ih (i + 1) w h
      refine ⟨k + 1, by omega, ?_, ?_, ?_⟩
      · intro j h1 h2
        by_cases hj : j = i
        · exact hj ▸ hc
        · exact hall j (by omega) (by omega)
      · have e : i + (k + 1) = i + 1 + k := by omega
        rw [e]; exact hn
      · have e : i + (k + 1) = i + 1 + k := by omega
        rw [e]; exact hw
    · rw [if_neg hc] at h
      refine ⟨0, by omega, fun j h1 h2 => absurd h2 (by omega), by simpa using hc, ?_⟩
      simpa using h.symm

theorem acquire_eq (env : Env) (T P fuel : Nat) :
    acquire env T P fuel
      = (pollLoop env T P (env.boot % ULONG) fuel (loopW env P 0)).map
          (fun w => checkFinalStatus env (Serial.printlnBlank w)) := by
  have e : WiFi.begin ssid password
      (Serial.println msgConnecting (Serial.begin 115200 (World.init env))) = loopW env P 0 := by
    simp [WiFi.begin, Serial.println, Serial.begin, World.init, loopW, clockAt]
  unfold acquire
  simp only [e]
  have m : millis (loopW env P 0) = env.boot % ULONG := by simp [millis, loopW, clockAt]
  rw [m]
  cases pollLoop env T P (env.boot % ULONG) fuel (loopW env P 0) <;> rfl

/-- The routine returns exactly when the loop leaves within the fuel, and then it
returns what the final check makes of the exit world. -/
theorem acquire_iff (env : Env) (T P fuel : Nat) (r : Outcome × World) :
    acquire env T P fuel = some r ↔
      ∃ n, n < fuel ∧ exitsAt env T P n ∧ r = finish env P n := by
  rw [acquire_eq]
  constructor
  · intro h
    rw [Option.map_eq_some'] at h
    obtain ⟨w, hw, hr⟩ := h
    obtain ⟨k, hk, hall, hn, he⟩ := pollLoop_some env T P fuel 0 w hw
    refine ⟨k, hk, ⟨fun i hi => hall i (Nat.zero_le i) (by omega), by simpa using hn⟩, ?_⟩
    rw [← hr, he]; simp [finish]
  · rintro ⟨n, hn, ⟨hall, hx⟩, rfl⟩
    obtain ⟨extra, rfl⟩ : ∃ extra, fuel = n + 1 + extra := ⟨fuel - (n + 1), by omega⟩
    have := pollLoop_exit env T P n 0 extra (fun j _ h2 => hall j (by omega)) (by simpa using hx)
    rw [this]; simp [finish]

theorem exitsAt_unique (env : Env) (T P n m : Nat)
    (hn : exitsAt env T P n) (hm : exitsAt env T P m) : n = m := by
  rcases Nat.lt_trichotomy n m with h | h | h
  · exact absurd (hm.1 n h) hn.2
  · exact h
  · exact absurd (hn.1 m h) hm.2

/-! ## The final check -/

theorem finish_serial (env : Env) (P n : Nat) :
    (finish env P n).2.serial = logOf n (finish env P n).1 := by
  unfold finish checkFinalStatus
  simp only [WiFi.status, WiFi.localIP, Serial.printlnBlank, Serial.println, Serial.print,
    Serial.printlnAddr, exitW, loopW, logOf]
  split_ifs <;> simp [summaryOf]

theorem finish_now (env : Env) (P n : Nat) :
    (finish env P n).2.now = clockAt env P n := by
  unfold finish checkFinalStatus
  simp only [WiFi.status, WiFi.localIP, Serial.printlnBlank, Serial.println, Serial.print,
    Serial.printlnAddr, exitW, loopW]
  split_ifs <;> rfl

theorem finish_outcome (env : Env) (P n : Nat) :
    classify3 (env.link (n + 1)).status (env.link (n + 2)).status (env.link (n + 3)).status
      (finish env P n).1 := by
  unfold finish checkFinalStatus
  simp only [WiFi.status, WiFi.localIP, Serial.printlnBlank, Serial.println, Serial.print,
    Serial.printlnAddr, exitW, loopW]
  split_ifs with h1 h2 h3
  · exact h1
  · exact ⟨h1, h2⟩
  · exact ⟨h1, h2, h3⟩
  · exact ⟨h1, h2, h3⟩

theorem finish_connected (env : Env) (P n : Nat)
    (h : (env.link (n + 1)).status = WL_CONNECTED) :
    (finish env P n).1 = Outcome.Connected (env.link (n + 2)).localIP := by
  unfold finish checkFinalStatus
  simp [WiFi.status, WiFi.localIP, Serial.printlnBlank, Serial.println, Serial.print,
    Serial.printlnAddr, exitW, loopW, h]

theorem finish_of_classify3 (env : Env) (P n : Nat) (o : Outcome)
    (ho : ∀ a, o ≠ Outcome.Connected a)
    (h : classify3 (env.link (n + 1)).status (env.link (n + 2)).status
      (env.link (n + 3)).status o) :
    (finish env P n).1 = o := by
  have hf := finish_outcome env P n
  cases o with
  | Connected a => exact absurd rfl (ho a)
  | NetworkNotFound =>
    cases hr : (finish env P n).1 <;> rw [hr] at hf <;> simp_all [classify3]
  | AuthenticationFailed =>
    cases hr : (finish env P n).1 <;> rw [hr] at hf <;> simp_all [classify3]
  | TimedOut =>
    cases hr : (finish env P n).1 <;> rw [hr] at hf <;> simp_all [classify3]

theorem summaryCount_logOf (n : Nat) (o : Outcome) : summaryCount (logOf n o) = 1 := by
  have hd : isSummary (SerialOut.print ".") = false := rfl
  have hrep : (List.replicate n (SerialOut.print ".")).filter isSummary = [] := by
    rw [List.filter_eq_nil_iff]
    intro a ha
    rw [List.eq_of_mem_replicate ha, hd]; simp
  have h0 : isSummary (SerialOut.println msgConnecting) = false := by decide
  have h1 : isSummary (SerialOut.println msgConnected) = true := by decide
  have h2 : isSummary (SerialOut.println msgNotFound) = true := by decide
  have h3 : isSummary (SerialOut.println msgBadPassword) = true := by decide
  have h4 : isSummary (SerialOut.println msgTimeout) = true := by decide
  have h5 : isSummary (SerialOut.print msgIpLabel) = false := rfl
  have h6 : isSummary SerialOut.printlnBlank = false := rfl
  have h7 : ∀ a, isSummary (SerialOut.printlnAddr a) = false := fun _ => rfl
  unfold summaryCount logOf
  cases o <;>
    simp [summaryOf, List.filter_cons, List.filter_append, hrep, h0, h1, h2, h3, h4, h5, h6, h7]

theorem filter_logOf (n : Nat) (o : Outcome) :
    (logOf n o).filter isSummary = (summaryOf o).take 1 := by
  have hd : isSummary (SerialOut.print ".") = false := rfl
  have hrep : (List.replicate n (SerialOut.print ".")).filter isSummary = [] := by
    rw [List.filter_eq_nil_iff]
    intro a ha
    rw [List.eq_of_mem_replicate ha, hd]; simp
  have h0 : isSummary (SerialOut.println msgConnecting) = false := by decide
  have h1 : isSummary (SerialOut.println msgConnected) = true := by decide
  have h2 : isSummary (SerialOut.println msgNotFound) = true := by decide
  have h3 : isSummary (SerialOut.println msgBadPassword) = true := by decide
  have h4 : isSummary (SerialOut.println msgTimeout) = true := by decide
  have h5 : isSummary (SerialOut.print msgIpLabel) = false := rfl
  have h6 : isSummary SerialOut.printlnBlank = false := rfl
  have h7 : ∀ a, isSummary (SerialOut.printlnAddr a) = false := fun _ => rfl
  unfold logOf
  cases o <;>
    simp [summaryOf, List.filter_cons, List.filter_append, hrep, h0, h1, h2, h3, h4, h5, h6, h7]

theorem dotCount_logOf (n : Nat) (o : Outcome) : dotCount (logOf n o) = n := by
  have hl : (SerialOut.print msgIpLabel == SerialOut.print ".") = false := by decide
  unfold dotCount logOf
  cases o <;>
    simp [summaryOf, List.count_cons, List.count_append, List.count_replicate_self, hl]

theorem getLast_logOf (n : Nat) (o : Outcome) (x : SerialOut)
    (h : summaryOf o = [x]) : (logOf n o).getLast? = some x := by
  have e : logOf n o
      = (SerialOut.println msgConnecting ::
          (List.replicate n (SerialOut.print ".") ++ [SerialOut.printlnBlank])) ++ [x] := by
    simp [logOf, h]
  rw [e, List.getLast?_concat]

/-! ## Runs of the whole routine -/

theorem exists_exitsAt (env : Env) (T P m : Nat) (h : ¬ continuesAt env T P m) :
    ∃ n, n ≤ m ∧ exitsAt env T P n := by
  have hex : ∃ n, ¬ continuesAt env T P n := ⟨m, h⟩
  refine ⟨Nat.find hex, Nat.find_min' hex h, ?_, Nat.find_spec hex⟩
  intro i hi
  exact not_not.mp (Nat.find_min hex hi)

theorem acquire_of_exitsAt (env : Env) (T P n : Nat) (hx : exitsAt env T P n) :
    (∀ fuel, fuel ≤ n → acquire env T P fuel = none) ∧
    (∀ fuel, n < fuel → acquire env T P fuel = some (finish env P n)) := by
  constructor
  · intro fuel hf
    cases hr : acquire env T P fuel with
    | none => rfl
    | some r =>
      obtain ⟨k, hk, hxk, _⟩ := (acquire_iff env T P fuel r).mp hr
      have := exitsAt_unique env T P k n hxk hx
      omega
  · intro fuel hf
    exact (acquire_iff env T P fuel _).mpr ⟨n, hf, hx, rfl⟩

/-- With a clock that advances by `P` at every delay and a source that is not
connected up to evaluation `(T + P - 1) / P`, the loop leaves there, at the first
multiple of `P` that reaches `T`. -/
theorem exitsAt_deadline (env : Env) (T P : Nat) (hP : 0 < P) (hT : T + P ≤ ULONG)
    (hclock : ∀ k, env.sleep k P = P)
    (hs : ∀ i, i ≤ (T + P - 1) / P → (env.link i).status ≠ WL_CONNECTED) :
    exitsAt env T P ((T + P - 1) / P) ∧ T ≤ (T + P - 1) / P * P ∧
      (T + P - 1) / P * P < T + P := by
  have h1 : (T + P - 1) / P * P ≤ T + P - 1 := Nat.div_mul_le_self _ _
  have h2 : T + P - 1 < P * ((T + P - 1) / P + 1) := Nat.lt_mul_div_succ _ hP
  have h3 : P * ((T + P - 1) / P + 1) = (T + P - 1) / P * P + P := by ring
  refine ⟨⟨?_, ?_⟩, by omega, by omega⟩
  · intro i hi
    refine ⟨hs i (Nat.le_of_lt hi), ?_⟩
    rw [elapsedAt_ideal env P hclock]
    have h4 : (i + 1) * P ≤ (T + P - 1) / P * P := Nat.mul_le_mul_right P hi
    have h5 : (i + 1) * P = i * P + P := by ring
    have h6 : i * P < T := by omega
    have h7 : i * P < ULONG := by omega
    rw [Nat.mod_eq_of_lt h7]; exact h6
  · intro hc
    have := hc.2
    rw [elapsedAt_ideal env P hclock] at this
    have h7 : (T + P - 1) / P * P < ULONG := by omega
    rw [Nat.mod_eq_of_lt h7] at this
    omega

theorem elapsedAt_ideal_small (env : Env) (h : ∀ k, env.sleep k pollDelay = pollDelay)
    (i : Nat) (hi : i ≤ 30) : elapsedAt env pollDelay i = i * 500 := by
  rw [elapsedAt_ideal env pollDelay h]
  have : i * 500 < ULONG := by unfold ULONG; omega
  simp only [pollDelay]
  exact Nat.mod_eq_of_lt this

theorem deadline_index : (timeout + pollDelay - 1) / pollDelay = 30 := by decide

theorem acquire_result (env : Env) (T P n : Nat) (hx : exitsAt env T P n)
    (fuel : Nat) (r : Outcome × World) (h : acquire env T P fuel = some r) :
    r = finish env P n := by
  obtain ⟨k, _, hxk, hr⟩ := (acquire_iff env T P fuel r).mp h
  rw [hr, exitsAt_unique env T P k n hxk hx]

theorem acquire_none_of_continues (env : Env) (T P : Nat)
    (h : ∀ n, continuesAt env T P n) (fuel : Nat) : acquire env T P fuel = none := by
  cases hr : acquire env T P fuel with
  | none => rfl
  | some r =>
    obtain ⟨k, _, hxk, _⟩ := (acquire_iff env T P fuel r).mp hr
    exact absurd (h k) hxk.2

theorem exitsAt_of (env : Env) (T P n : Nat)
    (hcont : ∀ i, i < n → (env.link i).status ≠ WL_CONNECTED ∧ elapsedAt env P i < T)
    (hexit : (env.link n).status = WL_CONNECTED ∨ T ≤ elapsedAt env P n) :
    exitsAt env T P n := by
  refine ⟨hcont, fun hc => ?_⟩
  rcases hexit with h | h
  · exact hc.1 h
  · exact absurd hc.2 (Nat.not_lt.mpr h)

/-! ## The claims -/

/-- C10: the deadline test of the loop is correct across wraparound of the 32-bit
counter.  For every start value `s` and true elapsed duration `d < 2^32` the
difference of `(s + d) mod 2^32` and `s` is `d`; hence in every world whose
hardware counter is `d` past the one in which `startAttemptTime` was read, the
loop condition `loopCond` is true exactly when the status read is not
`WL_CONNECTED` and `d < 15000`, and the loop `pollLoop` runs its body or leaves
accordingly. -/
theorem elapsed_correct_across_wraparound (s d : Nat) (hs : s < ULONG) (hd : d < ULONG) :
    usub ((s + d) % ULONG) s = d ∧
      (decide (usub ((s + d) % ULONG) s < timeout) = true ↔ d < timeout) ∧
      (∀ w0 w : World, millis w0 = s → w.now = w0.now + d →
        usub (millis w) (millis w0) = d) ∧
      (∀ (env : Env) (w0 w : World), millis w0 = s → w.now = w0.now + d →
        ((loopCond env timeout (millis w0) w).1 = true ↔
          (env.link w.reads).status ≠ WL_CONNECTED ∧ d < timeout) ∧
        (loopCond env timeout (millis w0) w).2 = (WiFi.status env w).2) ∧
      (∀ (env : Env) (P fuel : Nat) (w0 w : World), millis w0 = s → w.now = w0.now + d →
        pollLoop env timeout P (millis w0) (fuel + 1) w =
          if (env.link w.reads).status ≠ WL_CONNECTED ∧ d < timeout
          then pollLoop env timeout P (millis w0) fuel (loopBody env P (WiFi.status env w).2)
          else some (WiFi.status env w).2) := by
  have h : usub ((s + d) % ULONG) s = d := by
    have := usub_mod s d
    rw [Nat.mod_eq_of_lt hs, Nat.mod_eq_of_lt hd] at this
    exact this
  have hm : ∀ w0 w : World, w.now = w0.now + d → usub (millis w) (millis w0) = d := by
    intro w0 w hw
    unfold millis
    rw [hw, usub_mod, Nat.mod_eq_of_lt hd]
  have hc : ∀ (env : Env) (w0 w : World), w.now = w0.now + d →
      ((loopCond env timeout (millis w0) w).1 = true ↔
        (env.link w.reads).status ≠ WL_CONNECTED ∧ d < timeout) ∧
      (loopCond env timeout (millis w0) w).2 = (WiFi.status env w).2 := by
    intro env w0 w hw
    have hr : millis (WiFi.status env w).2 = millis w := rfl
    have hst : (WiFi.status env w).1 = (env.link w.reads).status := rfl
    unfold loopCond
    by_cases hcn : (env.link w.reads).status = WL_CONNECTED
    · simp [hst, hcn]
    · simp [hst, hcn, hr, hm w0 w hw]
  refine ⟨h, by rw [h]; simp, fun w0 w _ hw => hm w0 w hw, fun env w0 w _ hw => hc env w0 w hw, ?_⟩
  intro env P fuel w0 w _ hw
  obtain ⟨h1, h2⟩ := hc env w0 w hw
  rw [pollLoop]
  by_cases hk : (env.link w.reads).status ≠ WL_CONNECTED ∧ d < timeout
  · rw [if_pos hk]
    simp only [h1.mpr hk, h2, if_true]
  · rw [if_neg hk]
    have : (loopCond env timeout (millis w0) w).1 = false := by
      cases hb : (loopCond env timeout (millis w0) w).1
      · rfl
      · exact absurd (h1.mp hb) hk
    simp [this, h2]

theorem elapsed_correct_across_wraparound_witness :
    usub ((4294966296 + 5000) % ULONG) 4294966296 = 5000 ∧
      (decide (usub ((4294966296 + 5000) % ULONG) 4294966296 < timeout) = true
        ↔ 5000 < timeout) ∧
      (∀ w0 w : World, millis w0 = 4294966296 → w.now = w0.now + 5000 →
        usub (millis w) (millis w0) = 5000) ∧
      (∀ (env : Env) (w0 w : World), millis w0 = 4294966296 → w.now = w0.now + 5000 →
        ((loopCond env timeout (millis w0) w).1 = true ↔
          (env.link w.reads).status ≠ WL_CONNECTED ∧ 5000 < timeout) ∧
        (loopCond env timeout (millis w0) w).2 = (WiFi.status env w).2) ∧
      (∀ (env : Env) (P fuel : Nat) (w0 w : World),
        millis w0 = 4294966296 → w.now = w0.now + 5000 →
        pollLoop env timeout P (millis w0) (fuel + 1) w =
          if (env.link w.reads).status ≠ WL_CONNECTED ∧ 5000 < timeout
          then pollLoop env timeout P (millis w0) fuel (loopBody env P (WiFi.status env w).2)
          else some (WiFi.status env w).2) :=
  elapsed_correct_across_wraparound 4294966296 5000 (by decide) (by decide)

/-- C7: with the 15000 ms timeout and a clock that advances by the 500 ms delay,
a source that reports `WL_CONNECT_FAILED` on every read does not end the loop
early: no run returns within 30 evaluations of the condition, every longer run
returns `AuthenticationFailed` after exactly 30 iterations (30 progress markers),
with the counter at `boot + 15000`. -/
theorem auth_failed_only_at_deadline (env : Env)
    (hs : ∀ n, (env.link n).status = WL_CONNECT_FAILED)
    (hclock : ∀ k, env.sleep k pollDelay = pollDelay) :
    (∀ fuel, fuel ≤ 30 → setup env fuel = none) ∧
    ∃ w, (∀ fuel, 30 < fuel → setup env fuel = some (Outcome.AuthenticationFailed, w)) ∧
      w.serial = logOf 30 Outcome.AuthenticationFailed ∧ dotCount w.serial = 30 ∧
      w.now = env.boot + 15000 ∧ elapsedAt env pollDelay 30 = timeout := by
  have hx := exitsAt_deadline env timeout pollDelay (by decide) (by decide) hclock
    (fun i _ => by rw [hs i]; decide)
  rw [deadline_index] at hx
  have hrun := acquire_of_exitsAt env timeout pollDelay 30 hx.1
  have ho : (finish env pollDelay 30).1 = Outcome.AuthenticationFailed :=
    finish_of_classify3 env pollDelay 30 _ (fun a => by simp)
      ⟨by rw [hs]; decide, by rw [hs]; decide, hs _⟩
  have hser := finish_serial env pollDelay 30
  rw [ho] at hser
  refine ⟨hrun.1, (finish env pollDelay 30).2, ?_, hser, ?_, ?_, ?_⟩
  · intro fuel hf
    have := hrun.2 fuel hf
    rw [← ho]; exact this
  · rw [hser, dotCount_logOf]
  · rw [finish_now, clockAt_ideal env pollDelay hclock]; simp [pollDelay]
  · rw [elapsedAt_ideal env pollDelay hclock]; decide

theorem auth_failed_only_at_deadline_witness :
    (∀ fuel, fuel ≤ 30 → setup (envConst 0 WL_CONNECT_FAILED) fuel = none) ∧
    ∃ w, (∀ fuel, 30 < fuel →
        setup (envConst 0 WL_CONNECT_FAILED) fuel = some (Outcome.AuthenticationFailed, w)) ∧
      w.serial = logOf 30 Outcome.AuthenticationFailed ∧ dotCount w.serial = 30 ∧
      w.now = (envConst 0 WL_CONNECT_FAILED).boot + 15000 ∧
      elapsedAt (envConst 0 WL_CONNECT_FAILED) pollDelay 30 = timeout :=
  auth_failed_only_at_deadline (envConst 0 WL_CONNECT_FAILED) (fun _ => rfl) (fun _ => rfl)

/-- C6: whatever the source reports, when every `delay(500)` advances the clock by
500 ms the loop is left after `n <= 30` iterations: every run with more than `n`
evaluations of fuel returns the same result, one of the four outcomes, whose log
holds `n` progress markers and exactly one summary line; no such run is without a
result. -/
theorem setup_terminates_within_30 (env : Env)
    (hclock : ∀ k, env.sleep k pollDelay = pollDelay) :
    ∃ n o w, n ≤ 30 ∧ (∀ fuel, n < fuel → setup env fuel = some (o, w)) ∧
      (∀ fuel, 30 < fuel → setup env fuel ≠ none) ∧
      ((∃ a, o = Outcome.Connected a) ∨ o = Outcome.NetworkNotFound ∨
        o = Outcome.AuthenticationFailed ∨ o = Outcome.TimedOut) ∧
      w.serial = logOf n o ∧ dotCount w.serial = n ∧ summaryCount w.serial = 1 := by
  have h30 : ¬ continuesAt env timeout pollDelay 30 := by
    intro hc
    have := hc.2
    rw [elapsedAt_ideal env pollDelay hclock] at this
    revert this; decide
  obtain ⟨n, hn, hx⟩ := exists_exitsAt env timeout pollDelay 30 h30
  have hrun := acquire_of_exitsAt env timeout pollDelay n hx
  have hser := finish_serial env pollDelay n
  refine ⟨n, (finish env pollDelay n).1, (finish env pollDelay n).2, hn, hrun.2, ?_, ?_,
    hser, ?_, ?_⟩
  · intro fuel hf
    rw [setup, hrun.2 fuel (by omega)]; simp
  · cases (finish env pollDelay n).1 <;> simp
  · rw [hser, dotCount_logOf]
  · rw [hser, summaryCount_logOf]

theorem setup_terminates_within_30_witness :
    ∃ n o w, n ≤ 30 ∧
      (∀ fuel, n < fuel → setup (envConst 4294966296 Disconnected) fuel = some (o, w)) ∧
      (∀ fuel, 30 < fuel → setup (envConst 4294966296 Disconnected) fuel ≠ none) ∧
      ((∃ a, o = Outcome.Connected a) ∨ o = Outcome.NetworkNotFound ∨
        o = Outcome.AuthenticationFailed ∨ o = Outcome.TimedOut) ∧
      w.serial = logOf n o ∧ dotCount w.serial = n ∧ summaryCount w.serial = 1 :=
  setup_terminates_within_30 (envConst 4294966296 Disconnected) (fun _ => rfl)

/-- C3: if no poll up to the one that finds the deadline reached (evaluation `n`)
reports `WL_CONNECTED`, and the final check reads `WL_CONNECT_FAILED`, every run
with enough fuel ends with outcome `AuthenticationFailed` and the "Incorrect
password" line, not with `TimedOut` or `NetworkNotFound`. -/
theorem auth_failed_at_deadline (env : Env) (n : Nat)
    (hpoll : ∀ i, i ≤ n → (env.link i).status ≠ WL_CONNECTED)
    (hbefore : ∀ i, i < n → elapsedAt env pollDelay i < timeout)
    (hdead : timeout ≤ elapsedAt env pollDelay n)
    (hfinal : ∀ i, n < i → i ≤ n + 3 → (env.link i).status = WL_CONNECT_FAILED) :
    ∃ w, (∀ fuel, n < fuel → setup env fuel = some (Outcome.AuthenticationFailed, w)) ∧
      w.serial = logOf n Outcome.AuthenticationFailed ∧
      w.serial.getLast? = some (SerialOut.println msgBadPassword) ∧
      summaryCount w.serial = 1 := by
  have hx : exitsAt env timeout pollDelay n :=
    ⟨fun i hi => ⟨hpoll i (Nat.le_of_lt hi), hbefore i hi⟩,
      fun hc => absurd hc.2 (Nat.not_lt.mpr hdead)⟩
  have hrun := acquire_of_exitsAt env timeout pollDelay n hx
  have h1 := hfinal (n + 1) (by omega) (by omega)
  have h2 := hfinal (n + 2) (by omega) (by omega)
  have h3 := hfinal (n + 3) (by omega) (by omega)
  have ho : (finish env pollDelay n).1 = Outcome.AuthenticationFailed :=
    finish_of_classify3 env pollDelay n _ (fun a => by simp)
      ⟨by rw [h1]; decide, by rw [h2]; decide, h3⟩
  have hser := finish_serial env pollDelay n
  rw [ho] at hser
  refine ⟨(finish env pollDelay n).2, ?_, hser, ?_, ?_⟩
  · intro fuel hf
    rw [← ho]; exact hrun.2 fuel hf
  · rw [hser]; exact getLast_logOf n _ _ rfl
  · rw [hser, summaryCount_logOf]

theorem auth_failed_at_deadline_witness :
    ∃ w, (∀ fuel, 30 < fuel →
        setup envBadPassword fuel = some (Outcome.AuthenticationFailed, w)) ∧
      w.serial = logOf 30 Outcome.AuthenticationFailed ∧
      w.serial.getLast? = some (SerialOut.println msgBadPassword) ∧
      summaryCount w.serial = 1 :=
  auth_failed_at_deadline envBadPassword 30 (by decide)
    (by
      intro i hi
      rw [elapsedAt_ideal_small envBadPassword (fun _ => rfl) i (by omega)]
      simp only [timeout]; omega)
    (by rw [elapsedAt_ideal envBadPassword pollDelay (fun _ => rfl)]; decide)
    (by
      intro i h1 h2
      have : ¬ i ≤ 30 := by omega
      simp [envBadPassword, envScript, this])

/-- C4: if from some poll `j` on every read up to the end of the final check shows
`WL_NO_SSID_AVAIL`, no earlier poll shows `WL_CONNECTED`, and the deadline is found
reached at evaluation `n >= j`, every run with enough fuel ends with outcome
`NetworkNotFound` and the "WiFi network not found" line. -/
theorem network_not_found_at_deadline (env : Env) (j n : Nat) (hj : j ≤ n)
    (hearly : ∀ i, i < j → (env.link i).status ≠ WL_CONNECTED)
    (hkeeps : ∀ i, j ≤ i → i ≤ n + 3 → (env.link i).status = WL_NO_SSID_AVAIL)
    (hbefore : ∀ i, i < n → elapsedAt env pollDelay i < timeout)
    (hdead : timeout ≤ elapsedAt env pollDelay n) :
    ∃ w, (∀ fuel, n < fuel → setup env fuel = some (Outcome.NetworkNotFound, w)) ∧
      w.serial = logOf n Outcome.NetworkNotFound ∧
      w.serial.getLast? = some (SerialOut.println msgNotFound) ∧
      summaryCount w.serial = 1 := by
  have hpoll : ∀ i, i ≤ n → (env.link i).status ≠ WL_CONNECTED := by
    intro i hi
    by_cases h : i < j
    · exact hearly i h
    · rw [hkeeps i (by omega) (by omega)]; decide
  have hx : exitsAt env timeout pollDelay n :=
    ⟨fun i hi => ⟨hpoll i (Nat.le_of_lt hi), hbefore i hi⟩,
      fun hc => absurd hc.2 (Nat.not_lt.mpr hdead)⟩
  have hrun := acquire_of_exitsAt env timeout pollDelay n hx
  have h1 := hkeeps (n + 1) (by omega) (by omega)
  have h2 := hkeeps (n + 2) (by omega) (by omega)
  have ho : (finish env pollDelay n).1 = Outcome.NetworkNotFound :=
    finish_of_classify3 env pollDelay n _ (fun a => by simp) ⟨by rw [h1]; decide, h2⟩
  have hser := finish_serial env pollDelay n
  rw [ho] at hser
  refine ⟨(finish env pollDelay n).2, ?_, hser, ?_, ?_⟩
  · intro fuel hf
    rw [← ho]; exact hrun.2 fuel hf
  · rw [hser]; exact getLast_logOf n _ _ rfl
  · rw [hser, summaryCount_logOf]

theorem network_not_found_at_deadline_witness :
    ∃ w, (∀ fuel, 30 < fuel → setup envNoNetwork fuel = some (Outcome.NetworkNotFound, w)) ∧
      w.serial = logOf 30 Outcome.NetworkNotFound ∧
      w.serial.getLast? = some (SerialOut.println msgNotFound) ∧
      summaryCount w.serial = 1 :=
  network_not_found_at_deadline envNoNetwork 1 30 (by decide) (by decide)
    (by
      intro i h1 _
      have : i ≠ 0 := by omega
      simp [envNoNetwork, envScript, this])
    (by
      intro i hi
      rw [elapsedAt_ideal_small envNoNetwork (fun _ => rfl) i (by omega)]
      simp only [timeout]; omega)
    (by rw [elapsedAt_ideal envNoNetwork pollDelay (fun _ => rfl)]; decide)

/-- C1, the claim as stated fails: `envDrops` reports `WL_CONNECTED` with address
192.168.1.42 at the first poll, taken at elapsed time 0, and no run ends with
outcome `Connected`; the run ends with `TimedOut`. -/
theorem connected_at_poll_then_dropped :
    envDrops.link 0 = ⟨WL_CONNECTED, ⟨"192.168.1.42"⟩⟩ ∧
    elapsedAt envDrops pollDelay 0 < timeout ∧
    (setup envDrops 1).map Prod.fst = some Outcome.TimedOut ∧
    ¬ ∃ fuel a w, setup envDrops fuel = some (Outcome.Connected a, w) := by
  refine ⟨rfl, by decide, by decide, ?_⟩
  rintro ⟨fuel, a, w, h⟩
  have hx : exitsAt envDrops timeout pollDelay 0 := by decide
  have := acquire_result envDrops timeout pollDelay 0 hx fuel _ h
  have h1 : (finish envDrops pollDelay 0).1 = Outcome.TimedOut := by decide
  rw [← this] at h1
  simp at h1

/-- C1, amended: if the first `WL_CONNECTED` report comes at a poll `n` taken while
the elapsed time is below the timeout, and the source still reports `WL_CONNECTED`
to the final check and the address `A` to the address read that follows it, every
run with enough fuel ends with outcome `Connected A` (the "Connected!" line
followed by `A`), and the loop stops at that poll, after `n` iterations, with the
elapsed time still below the timeout. -/
theorem connected_when_still_connected (env : Env) (n : Nat) (A : IPAddress)
    (hpoll : ∀ i, i < n → (env.link i).status ≠ WL_CONNECTED)
    (hbefore : ∀ i, i ≤ n → elapsedAt env pollDelay i < timeout)
    (hn : (env.link n).status = WL_CONNECTED)
    (hstill : (env.link (n + 1)).status = WL_CONNECTED)
    (haddr : (env.link (n + 2)).localIP = A) :
    (∀ fuel, fuel ≤ n → setup env fuel = none) ∧
    ∃ w, (∀ fuel, n < fuel → setup env fuel = some (Outcome.Connected A, w)) ∧
      w.serial = logOf n (Outcome.Connected A) ∧ dotCount w.serial = n ∧
      w.now = clockAt env pollDelay n ∧
      usub (millis w) (env.boot % ULONG) < timeout := by
  have hx : exitsAt env timeout pollDelay n :=
    exitsAt_of env timeout pollDelay n
      (fun i hi => ⟨hpoll i hi, hbefore i (Nat.le_of_lt hi)⟩) (Or.inl hn)
  have hrun := acquire_of_exitsAt env timeout pollDelay n hx
  have ho : (finish env pollDelay n).1 = Outcome.Connected A := by
    rw [finish_connected env pollDelay n hstill, haddr]
  have hser := finish_serial env pollDelay n
  rw [ho] at hser
  have hnow := finish_now env pollDelay n
  refine ⟨hrun.1, (finish env pollDelay n).2, ?_, hser, ?_, hnow, ?_⟩
  · intro fuel hf
    rw [← ho]; exact hrun.2 fuel hf
  · rw [hser, dotCount_logOf]
  · have := hbefore n (Nat.le_refl n)
    unfold elapsedAt at this
    unfold millis
    rw [hnow]; exact this

theorem connected_when_still_connected_witness :
    (∀ fuel, fuel ≤ 2 → setup envJoins fuel = none) ∧
    ∃ w, (∀ fuel, 2 < fuel →
        setup envJoins fuel = some (Outcome.Connected ⟨"192.168.1.42"⟩, w)) ∧
      w.serial = logOf 2 (Outcome.Connected ⟨"192.168.1.42"⟩) ∧ dotCount w.serial = 2 ∧
      w.now = clockAt envJoins pollDelay 2 ∧
      usub (millis w) (envJoins.boot % ULONG) < timeout :=
  connected_when_still_connected envJoins 2 ⟨"192.168.1.42"⟩ (by decide) (by decide)
    (by decide) (by decide) (by decide)

/-- C2, the claim as stated fails: with every read `Connecting` and a clock that
advances only by the delay, the loop is never left when the poll interval is 0
(timeout 1), nor when timeout and poll interval do not fit the 32-bit counter
(timeout `2^32 - 1`, poll interval `2^31`): no run produces an outcome. -/
theorem connecting_forever_without_bounds :
    idealClock (envConst 0 Connecting) ∧
    (∀ n, ((envConst 0 Connecting).link n).status = Connecting) ∧
    (¬ ∃ fuel r, acquire (envConst 0 Connecting) 1 0 fuel = some r) ∧
    ¬ ∃ fuel r, acquire (envConst 0 Connecting) 4294967295 2147483648 fuel = some r := by
  refine ⟨fun _ _ => rfl, fun _ => rfl, ?_, ?_⟩
  · rintro ⟨fuel, r, h⟩
    rw [acquire_none_of_continues (envConst 0 Connecting) 1 0 ?_ fuel] at h
    · simp at h
    · intro n
      refine ⟨by simp [envConst], ?_⟩
      rw [elapsedAt_ideal _ 0 (fun _ => rfl)]
      simp
  · rintro ⟨fuel, r, h⟩
    rw [acquire_none_of_continues (envConst 0 Connecting) 4294967295 2147483648 ?_ fuel] at h
    · simp at h
    · intro n
      refine ⟨by simp [envConst], ?_⟩
      rw [elapsedAt_ideal _ 2147483648 (fun _ => rfl)]
      unfold ULONG
      omega

/-- C2, amended: for every timeout `T > 0` and poll interval `P > 0` that fit the
32-bit counter (`T + P <= 2^32`) and every start time, if every read returns
`Connecting` and the clock advances only by the delay, every run with enough fuel
ends with outcome `TimedOut`, and the loop is left with the counter at a value `t`
with `boot + T <= t < boot + T + P`; for `T = 15000`, `P = 500` that is exactly
`boot + 15000`. -/
theorem timed_out_within_one_interval (env : Env) (T P : Nat)
    (hT : 0 < T) (hP : 0 < P) (hTP : T + P ≤ ULONG)
    (hs : ∀ n, (env.link n).status = Connecting) (hclock : idealClock env) :
    ∃ n w, 0 < n ∧ (∀ fuel, n < fuel → acquire env T P fuel = some (Outcome.TimedOut, w)) ∧
      (∀ fuel, fuel ≤ n → acquire env T P fuel = none) ∧
      w.serial = logOf n Outcome.TimedOut ∧
      env.boot + T ≤ w.now ∧ w.now < env.boot + T + P ∧
      (T = timeout → P = pollDelay → w.now = env.boot + 15000) := by
  obtain ⟨hx, hlo, hhi⟩ := exitsAt_deadline env T P hP hTP (fun k => hclock k P)
    (fun i _ => by rw [hs i]; decide)
  generalize (T + P - 1) / P = n at hx hlo hhi
  have hrun := acquire_of_exitsAt env T P n hx
  have ho : (finish env P n).1 = Outcome.TimedOut :=
    finish_of_classify3 env P n _ (fun a => by simp)
      ⟨by rw [hs]; decide, by rw [hs]; decide, by rw [hs]; decide⟩
  have hser := finish_serial env P n
  rw [ho] at hser
  have hnow : (finish env P n).2.now = env.boot + n * P := by
    rw [finish_now, clockAt_ideal env P (fun k => hclock k P)]
  have hn : 0 < n := by
    rcases Nat.eq_zero_or_pos n with h | h
    · rw [h] at hlo; omega
    · exact h
  refine ⟨n, (finish env P n).2, hn, ?_, hrun.1, hser, by omega, by omega, ?_⟩
  · intro fuel hf
    rw [← ho]; exact hrun.2 fuel hf
  · intro h1 h2
    rw [hnow]
    subst h1 h2
    simp only [timeout, pollDelay] at hlo hhi ⊢
    omega

theorem timed_out_within_one_interval_witness :
    ∃ n w, 0 < n ∧ (∀ fuel, n < fuel →
        acquire (envConst 4294960000 Connecting) timeout pollDelay fuel
          = some (Outcome.TimedOut, w)) ∧
      (∀ fuel, fuel ≤ n →
        acquire (envConst 4294960000 Connecting) timeout pollDelay fuel = none) ∧
      w.serial = logOf n Outcome.TimedOut ∧
      (envConst 4294960000 Connecting).boot + timeout ≤ w.now ∧
      w.now < (envConst 4294960000 Connecting).boot + timeout + pollDelay ∧
      (timeout = timeout → pollDelay = pollDelay →
        w.now = (envConst 4294960000 Connecting).boot + 15000) :=
  timed_out_within_one_interval (envConst 4294960000 Connecting) timeout pollDelay
    (by decide) (by decide) (by decide) (fun _ => rfl) (fun _ _ => rfl)

/-- C5, the claim as stated fails: on `envFrozen` (status `Connecting` at every
read, a clock that never advances) the loop is never left, so no run produces an
outcome or a summary line. -/
theorem frozen_clock_no_outcome :
    (∀ n, (envFrozen.link n).status = Connecting) ∧
    (∀ i, clockAt envFrozen pollDelay i = envFrozen.boot) ∧
    ¬ ∃ fuel r, setup envFrozen fuel = some r := by
  refine ⟨fun _ => rfl, ?_, ?_⟩
  · intro i
    induction i with
    | zero => rfl
    | succ i ih => rw [clockAt, ih]; rfl
  rintro ⟨fuel, r, h⟩
  have hc : ∀ n, continuesAt envFrozen timeout pollDelay n := by
    intro n
    have hk : ∀ i, clockAt envFrozen pollDelay i = 0 := by
      intro i
      induction i with
      | zero => rfl
      | succ i ih => rw [clockAt, ih]; rfl
    refine ⟨by simp [envFrozen], ?_⟩
    unfold elapsedAt
    rw [hk n]
    decide
  rw [setup, acquire_none_of_continues envFrozen timeout pollDelay hc fuel] at h
  simp at h

/-- C5, amended: for every status source and every clock behaviour under which
some poll `m` reports `WL_CONNECTED` or finds the elapsed time at or past the
timeout, the attempt produces exactly one outcome: some run returns, all runs that
return give the same result, and its log holds exactly one summary line, the one
of that outcome. -/
theorem exactly_one_summary_line (env : Env) (m : Nat)
    (h : (env.link m).status = WL_CONNECTED ∨ timeout ≤ elapsedAt env pollDelay m) :
    ∃ o w, (∃ fuel, setup env fuel = some (o, w)) ∧
      (∀ fuel r, setup env fuel = some r → r = (o, w)) ∧
      summaryCount w.serial = 1 ∧
      w.serial.filter isSummary = (summaryOf o).take 1 := by
  have hm : ¬ continuesAt env timeout pollDelay m := by
    intro hc
    rcases h with h | h
    · exact hc.1 h
    · exact absurd hc.2 (Nat.not_lt.mpr h)
  obtain ⟨n, _, hx⟩ := exists_exitsAt env timeout pollDelay m hm
  have hrun := acquire_of_exitsAt env timeout pollDelay n hx
  have hser := finish_serial env pollDelay n
  refine ⟨(finish env pollDelay n).1, (finish env pollDelay n).2,
    ⟨n + 1, hrun.2 (n + 1) (Nat.lt_succ_self n)⟩, ?_, ?_, ?_⟩
  · intro fuel r hr
    exact acquire_result env timeout pollDelay n hx fuel r hr
  · rw [hser, summaryCount_logOf]
  · rw [hser, filter_logOf]

theorem exactly_one_summary_line_witness :
    ∃ o w, (∃ fuel, setup envJoins fuel = some (o, w)) ∧
      (∀ fuel r, setup envJoins fuel = some r → r = (o, w)) ∧
      summaryCount w.serial = 1 ∧
      w.serial.filter isSummary = (summaryOf o).take 1 :=
  exactly_one_summary_line envJoins 2 (Or.inl (by decide))

/-- C8, the claim as stated fails: `envLate` reports `WL_NO_SSID_AVAIL` at the
first poll, yet the loop is not left there (a run with fuel for one evaluation
does not return) and the attempt ends after one iteration with outcome
`Connected`; no run ends with `NetworkNotFound`. -/
theorem not_found_poll_keeps_polling :
    (envLate.link 0).status = WL_NO_SSID_AVAIL ∧
    setup envLate 1 = none ∧
    (setup envLate 2).map (fun r => (r.1, dotCount r.2.serial, r.2.now))
      = some (Outcome.Connected ⟨"192.168.1.42"⟩, 1, 500) ∧
    ¬ ∃ fuel w, setup envLate fuel = some (Outcome.NetworkNotFound, w) := by
  refine ⟨rfl, by decide, by decide, ?_⟩
  rintro ⟨fuel, w, h⟩
  have hx : exitsAt envLate timeout pollDelay 1 := by decide
  have := acquire_result envLate timeout pollDelay 1 hx fuel _ h
  have h1 : (finish envLate pollDelay 1).1 = Outcome.Connected ⟨"192.168.1.42"⟩ := by decide
  rw [← this] at h1
  simp at h1

/-- C8, amended: a poll that reads `WL_NO_SSID_AVAIL` (or any status other than
`WL_CONNECTED`) before the deadline does not stop polling.  The loop is left at the
first poll `n` that reads `WL_CONNECTED` or finds the deadline reached, whichever
comes first: no run returns within `n` evaluations, every longer run returns the
same result after `n` iterations, and its outcome is `NetworkNotFound` exactly when
the final check reads a status other than `WL_CONNECTED` and then
`WL_NO_SSID_AVAIL`. -/
theorem loop_left_on_connected_or_deadline (env : Env) (n : Nat)
    (hcont : ∀ i, i < n →
      (env.link i).status ≠ WL_CONNECTED ∧ elapsedAt env pollDelay i < timeout)
    (hexit : (env.link n).status = WL_CONNECTED ∨ timeout ≤ elapsedAt env pollDelay n) :
    (∀ fuel, fuel ≤ n → setup env fuel = none) ∧
    ∃ o w, (∀ fuel, n < fuel → setup env fuel = some (o, w)) ∧
      dotCount w.serial = n ∧ w.now = clockAt env pollDelay n ∧
      (o = Outcome.NetworkNotFound ↔
        (env.link (n + 1)).status ≠ WL_CONNECTED ∧
          (env.link (n + 2)).status = WL_NO_SSID_AVAIL) := by
  have hx := exitsAt_of env timeout pollDelay n hcont hexit
  have hrun := acquire_of_exitsAt env timeout pollDelay n hx
  have hser := finish_serial env pollDelay n
  have hcl := finish_outcome env pollDelay n
  refine ⟨hrun.1, (finish env pollDelay n).1, (finish env pollDelay n).2, hrun.2, ?_,
    finish_now env pollDelay n, ?_⟩
  · rw [hser, dotCount_logOf]
  · constructor
    · intro ho
      rw [ho] at hcl
      exact hcl
    · intro hc
      exact finish_of_classify3 env pollDelay n _ (fun a => by simp) hc

theorem loop_left_on_connected_or_deadline_witness :
    (∀ fuel, fuel ≤ 30 → setup envNoNetwork fuel = none) ∧
    ∃ o w, (∀ fuel, 30 < fuel → setup envNoNetwork fuel = some (o, w)) ∧
      dotCount w.serial = 30 ∧ w.now = clockAt envNoNetwork pollDelay 30 ∧
      (o = Outcome.NetworkNotFound ↔
        (envNoNetwork.link (30 + 1)).status ≠ WL_CONNECTED ∧
          (envNoNetwork.link (30 + 2)).status = WL_NO_SSID_AVAIL) :=
  loop_left_on_connected_or_deadline envNoNetwork 30
    (by
      intro i hi
      refine ⟨?_, ?_⟩
      · by_cases h0 : i = 0 <;> simp [envNoNetwork, envScript, h0]
      · rw [elapsedAt_ideal_small envNoNetwork (fun _ => rfl) i (by omega)]
        simp only [timeout]; omega)
    (Or.inr (by rw [elapsedAt_ideal_small envNoNetwork (fun _ => rfl) 30 (by omega)]; decide))

/-- C9, the claim as stated fails: every status `envShift` ever reports is
`WL_CONNECTED` or `WL_NO_SSID_AVAIL`, neither of which the claimed function sends
to `TimedOut`, yet every run that returns ends with outcome `TimedOut`, because the
three tests of the final check read three different reports. -/
theorem final_check_not_a_function_of_one_status :
    (∀ i a, classify a (envShift.link i).status ≠ Outcome.TimedOut) ∧
    (setup envShift 1).map Prod.fst = some Outcome.TimedOut ∧
    ¬ ∃ fuel r, setup envShift fuel = some r ∧ r.1 ≠ Outcome.TimedOut := by
  refine ⟨?_, by decide, ?_⟩
  · intro i a
    by_cases h : i = 1 <;> simp [envShift, envScript, h, classify]
  · rintro ⟨fuel, r, h, hne⟩
    have hx : exitsAt envShift timeout pollDelay 0 := by decide
    have := acquire_result envShift timeout pollDelay 0 hx fuel _ h
    have h1 : (finish envShift pollDelay 0).1 = Outcome.TimedOut := by decide
    rw [← this] at h1
    exact hne h1

/-- C9, amended: after the loop is left (at evaluation `n`) the status is read
again for each test of the chain, up to three times: the outcome is `Connected`
when the first read is `WL_CONNECTED`, else `NetworkNotFound` when the second is
`WL_NO_SSID_AVAIL`, else `AuthenticationFailed` when the third is
`WL_CONNECT_FAILED`, else `TimedOut`.  For every source whose status does not
change between these reads the outcome is the function `classify` of that one
status value `s`. -/
theorem final_check_reads_status_per_test (env : Env) (n : Nat)
    (hcont : ∀ i, i < n →
      (env.link i).status ≠ WL_CONNECTED ∧ elapsedAt env pollDelay i < timeout)
    (hexit : (env.link n).status = WL_CONNECTED ∨ timeout ≤ elapsedAt env pollDelay n) :
    ∃ o w, (∀ fuel, n < fuel → setup env fuel = some (o, w)) ∧
      classify3 (env.link (n + 1)).status (env.link (n + 2)).status
        (env.link (n + 3)).status o ∧
      (∀ a, o = Outcome.Connected a → a = (env.link (n + 2)).localIP) ∧
      (∀ s, (∀ i, n < i → i ≤ n + 3 → (env.link i).status = s) →
        o = classify (env.link (n + 2)).localIP s) := by
  have hx := exitsAt_of env timeout pollDelay n hcont hexit
  have hrun := acquire_of_exitsAt env timeout pollDelay n hx
  have hcl := finish_outcome env pollDelay n
  refine ⟨(finish env pollDelay n).1, (finish env pollDelay n).2, hrun.2, hcl, ?_, ?_⟩
  · intro a ha
    rw [ha] at hcl
    have := finish_connected env pollDelay n hcl
    rw [ha] at this
    exact Outcome.Connected.inj this
  · intro s hs
    have h1 := hs (n + 1) (by omega) (by omega)
    have h2 := hs (n + 2) (by omega) (by omega)
    have h3 := hs (n + 3) (by omega) (by omega)
    cases s with
    | WL_CONNECTED => exact finish_connected env pollDelay n h1
    | WL_NO_SSID_AVAIL =>
      exact finish_of_classify3 env pollDelay n _ (fun a => by simp [classify])
        ⟨by rw [h1]; decide, h2⟩
    | WL_CONNECT_FAILED =>
      exact finish_of_classify3 env pollDelay n _ (fun a => by simp [classify])
        ⟨by rw [h1]; decide, by rw [h2]; decide, h3⟩
    | Disconnected =>
      exact finish_of_classify3 env pollDelay n _ (fun a => by simp [classify])
        ⟨by rw [h1]; decide, by rw [h2]; decide, by rw [h3]; decide⟩
    | Connecting =>
      exact finish_of_classify3 env pollDelay n _ (fun a => by simp [classify])
        ⟨by rw [h1]; decide, by rw [h2]; decide, by rw [h3]; decide⟩

theorem final_check_reads_status_per_test_witness :
    ∃ o w, (∀ fuel, 0 < fuel → setup envShift fuel = some (o, w)) ∧
      classify3 (envShift.link (0 + 1)).status (envShift.link (0 + 2)).status
        (envShift.link (0 + 3)).status o ∧
      (∀ a, o = Outcome.Connected a → a = (envShift.link (0 + 2)).localIP) ∧
      (∀ s, (∀ i, 0 < i → i ≤ 0 + 3 → (envShift.link i).status = s) →
        o = classify (envShift.link (0 + 2)).localIP s) :=
  final_check_reads_status_per_test envShift 0 (fun i hi => absurd hi (Nat.not_lt_zero i))
    (Or.inl (by decide))

end Esp32Setup
